import Mathlib

set_option maxHeartbeats 1000000

/-!
Shallow embedding of the ontology tagger (BioPortal client, OWL lexicon and
the reconciliation orchestrator `annotate_terms`).  Remote-service effects
are made explicit: every remote operation that the Python code performs is
recorded in a trace of `RemoteCall` events, the local download cache is an
explicit list of file names, and fallible code returns `Except TagError`.
-/

/-- Python truthiness of an optional string: `None` and `""` are falsy. -/
def optTruthy : Option String → Bool
  | none => false
  | some s => s != ""

/-- Python `a or b` for an optional string `a` and a plain default `b`. -/
def pyOrStr (a : Option String) (b : String) : String :=
  match a with
  | none => b
  | some s => if s == "" then b else s

/-- Python `a or b` where both operands are optional strings. -/
def pyOrOpt (a b : Option String) : Option String :=
  match a with
  | none => b
  | some s => if s == "" then b else some s

/-- Suffix of a character list strictly after the last occurrence of `sep`;
the whole list when `sep` does not occur.  This is Python
`"".join(l).rsplit(sep, 1)[-1]` for a one-character separator. -/
def afterLastChar (sep : Char) : List Char → List Char
  | [] => []
  | c :: cs =>
    if sep ∈ cs then afterLastChar sep cs
    else if c = sep then cs
    else c :: cs

/-- Python `s.rsplit(sep, 1)[-1]` for a one-character separator `sep`. -/
def rsplitTail (sep : Char) (s : String) : String :=
  ⟨afterLastChar sep s.data⟩

/-- Short-identifier extraction used at tagger.py:193 and tagger.py:321:
`ident.rsplit("#", 1)[-1].rsplit("/", 1)[-1]` — first cut after the last
`#`, then cut the result after its last `/`. -/
def shortIdOf (uri : String) : String :=
  rsplitTail '/' (rsplitTail '#' uri)

/-- The extraction rule exactly as the spec words it: the substring after
the last `#` if the string contains `#`, otherwise the substring after the
last `/`.  Kept separate from `shortIdOf` so the two can be compared. -/
def specShortId (s : String) : String :=
  if '#' ∈ s.data then rsplitTail '#' s else rsplitTail '/' s

/-- Errors raised by the tagger.  The code has a single
`OntologyVersionNotFound` exception class; it is raised both for an empty
submission list (tagger.py:79, with `available = []`) and for a requested
version missing from a non-empty list (tagger.py:87, tagger.py:288). -/
inductive TagError
  | valueErrorNoInput
  | versionNotFound (ontology : String) (version : String) (available : List String)
  | noSubmissionId
  | downloadNotOwl
  | parseError
deriving DecidableEq

/-- Remote-service operations, recorded in order of execution. -/
inductive RemoteCall
  | listSubs (ontology : String)
  | annotateText (text : String) (ontology : String)
  | netDownload (ontology : String) (version : String)
deriving DecidableEq

/-- Number of submission-list fetches in a trace. -/
def countListSubs (tr : List RemoteCall) : Nat :=
  (tr.filter (fun c => match c with | .listSubs _ => true | _ => false)).length

/-- Number of network artifact downloads in a trace. -/
def countNetDownloads (tr : List RemoteCall) : Nat :=
  (tr.filter (fun c => match c with | .netDownload _ _ => true | _ => false)).length

/-- Whitespace characters removed by Python `str.strip` (ASCII range). -/
def isPySpace (c : Char) : Bool :=
  c == ' ' || c == '\t' || c == '\n' || c == '\x0d' || c == '\x0b' || c == '\x0c'

/-- Python `str.strip()`: drop leading and trailing whitespace. -/
def pyStrip (s : String) : String :=
  ⟨((s.data.dropWhile isPySpace).reverse.dropWhile isPySpace).reverse⟩

/-- Python `str.lower()` (ASCII case mapping). -/
def pyLower (s : String) : String :=
  ⟨s.data.map Char.toLower⟩

/-- Splitting a character list at every character satisfying `p`. -/
def splitCharsAux (p : Char → Bool) : List Char → List Char → List (List Char)
  | [], acc => [acc.reverse]
  | c :: cs, acc =>
    if p c then acc.reverse :: splitCharsAux p cs []
    else splitCharsAux p cs (c :: acc)

/-- Python `str.splitlines`, up to extra empty lines (from `"\r\n"` pairs
and a trailing line break) that are removed by the non-empty filter in
`normalize_terms` right after splitting. -/
def splitlines (s : String) : List String :=
  (splitCharsAux (fun c => c == '\n' || c == '\x0d') s.data []).map (⟨·⟩)

/-- Embedding of utils.py:45 `normalize_terms`.  `terms` is the optional
iterable of (possibly `None`) terms; `fileContent` stands for the text of
`file_path` when one is given (`None` when `file_path is None`). -/
def normalize_terms (terms : Option (List (Option String)))
    (fileContent : Option String) : Except TagError (List String) :=
  match terms, fileContent with
  | none, none => .error .valueErrorNoInput
  | _, _ =>
    let fromTerms : List String :=
      match terms with
      | none => []
      | some ts =>
        ts.foldr (fun t acc =>
          (match t with
           | none => []
           | some s => ((splitlines s).map pyStrip).filter (fun l => l != "")) ++ acc) []
    let fromFile : List String :=
      match fileContent with
      | none => []
      | some content => ((splitlines content).map pyStrip).filter (fun l => l != "")
    .ok (fromTerms ++ fromFile)

/-- An RDF node of the parsed OWL graph (tagger.py builds the lexicon from
rdflib triples; only whether the node is a `URIRef` and its string form
matter to the code). -/
inductive Node
  | uriRef (s : String)
  | literal (s : String)
  | blank (s : String)
deriving DecidableEq

/-- Python `str(node)`. -/
def nodeStr : Node → String
  | .uriRef s => s
  | .literal s => s
  | .blank s => s

/-- One RDF triple of the parsed artifact. -/
structure Triple where
  subj : Node
  pred : Node
  obj : Node
deriving DecidableEq

/-- The `rdfs:label` predicate used by the first indexing pass. -/
def rdfsLabel : Node := .uriRef "http://www.w3.org/2000/01/rdf-schema#label"

/-- Last-wins association lookup: Python dict assignment in traversal
order, queried by key. -/
def lookupLast (k : String) : List (String × String) → Option String
  | [] => none
  | (a, b) :: rest =>
    match lookupLast k rest with
    | some v => some v
    | none => if a = k then some b else none

/-- The three indexes of tagger.py:145 `OwlLexicon`: lower-cased labels,
lower-cased short identifiers, and the identifier → original-case label
map (last label statement wins). -/
structure OwlLexicon where
  labels : List String
  ids : List String
  idToLabel : List (String × String)
deriving DecidableEq

/-- tagger.py:205 `has_label`. -/
def OwlLexicon.has_label (lex : OwlLexicon) (label : String) : Bool :=
  lex.labels.contains (pyStrip (pyLower label))

/-- tagger.py:208 `has_id`. -/
def OwlLexicon.has_id (lex : OwlLexicon) (ident : String) : Bool :=
  lex.ids.contains (pyStrip (pyLower ident))

/-- tagger.py:211 `get_label_by_id`. -/
def OwlLexicon.get_label_by_id (lex : OwlLexicon) (ident : String) : Option String :=
  lookupLast (pyStrip (pyLower ident)) lex.idToLabel

/-- Lexicon construction, tagger.py:178-203: a first pass over the
`rdfs:label` triples filling `labels` and `idToLabel`, and a second pass
over every triple collecting the short identifier of each `URIRef`
subject. -/
def buildLexicon (g : List Triple) : OwlLexicon :=
  { labels :=
      (g.filter (fun t => t.pred == rdfsLabel)).filterMap (fun t =>
        let label := pyStrip (nodeStr t.obj)
        if label == "" then none else some (pyLower label))
  , ids :=
      g.filterMap (fun t =>
        match t.subj with
        | .uriRef u => some (pyLower (shortIdOf u))
        | _ => none)
  , idToLabel :=
      (g.filter (fun t => t.pred == rdfsLabel)).filterMap (fun t =>
        let label := pyStrip (nodeStr t.obj)
        if label == "" then none
        else
          match t.subj with
          | .uriRef u => some (pyLower (shortIdOf u), label)
          | _ => none) }

/-- One submission record as returned by the submission-list endpoint;
`version` models `sub.get("version")` and `submissionId` models
`sub.get("submissionId")` (absent or empty values are falsy). -/
structure Submission where
  version : Option String
  submissionId : Option String
deriving DecidableEq

/-- Python `str(sub.get("version") or "")` (tagger.py:83, 86, 280, 287). -/
def Submission.versionStr (s : Submission) : String :=
  match s.version with
  | none => ""
  | some v => v

/-- Python `str(sub.get("version") or d)` (tagger.py:92, 272). -/
def Submission.versionOr (s : Submission) (d : String) : String :=
  match s.version with
  | none => d
  | some v => if v == "" then d else v

/-- Deterministic cache file name, tagger.py:104:
`f"{ontology}_{resolved_version}.owl"`. -/
def destName (ontology resolved : String) : String :=
  ontology ++ "_" ++ resolved ++ ".owl"

/-- Submission selection of tagger.py:77-90: fail on an empty list; with a
truthy requested version keep the submissions whose version string equals
it exactly and fail when none does; otherwise take the first. -/
def selectSubmission (subs : List Submission) (ontology : String)
    (version : Option String) : Except TagError Submission :=
  if subs.isEmpty then
    .error (.versionNotFound ontology (pyOrStr version "latest") [])
  else if optTruthy version then
    match subs.filter (fun s => s.versionStr == version.getD "") with
    | [] => .error (.versionNotFound ontology (version.getD "")
        (subs.map Submission.versionStr))
    | m :: _ => .ok m
  else
    match subs with
    | [] => .error (.versionNotFound ontology (pyOrStr version "latest") [])
    | s0 :: _ => .ok s0

/-- Embedding of tagger.py:69 `download_submission`.  `subs` is what the
internal `list_submissions` call returns, `contentIsJson` whether the
downloaded payload would look like JSON (tagger.py:130), `disk` the set of
cache file names already present.  Returns the result, the new disk state
and the trace of remote calls. -/
def download_submission (subs : List Submission) (contentIsJson : Bool)
    (ontology : String) (version : Option String) (disk : List String) :
    Except TagError (String × String) × List String × List RemoteCall :=
  let tr : List RemoteCall := [.listSubs ontology]
  match selectSubmission subs ontology version with
  | .error e => (.error e, disk, tr)
  | .ok submission =>
    let resolved := submission.versionOr "latest"
    if optTruthy submission.submissionId = false then
      (.error .noSubmissionId, disk, tr)
    else
      let dest := destName ontology resolved
      if disk.contains dest then
        (.ok (dest, resolved), disk, tr)
      else if contentIsJson then
        (.error .downloadNotOwl, disk, tr ++ [.netDownload ontology resolved])
      else
        (.ok (dest, resolved), dest :: disk, tr ++ [.netDownload ontology resolved])

/-- The `annotatedClass` payload of a live annotation candidate:
`prefLabel` and the `@id` concept URI (either may be absent). -/
structure AnnotatedClass where
  prefLabel : Option String
  id : Option String
deriving DecidableEq

/-- One live annotation candidate; `top.get("annotatedClass", {})` yields
an empty mapping when the key is absent. -/
structure Annotation where
  annotatedClass : Option AnnotatedClass
deriving DecidableEq

/-- The unit of output, tagger.py:218 `AnnotationOutcome`. -/
structure AnnotationOutcome where
  input_text : String
  standardized_term : Option String
  ontology_id : Option String
  ontology_version : Option String
  comment : String
deriving DecidableEq

/-- tagger.py:319-321: `short_id = None; if ontology_uri: short_id =
ontology_uri.rsplit("#", 1)[-1].rsplit("/", 1)[-1]`. -/
def candidateShortId (cd : AnnotatedClass) : Option String :=
  match cd.id with
  | none => none
  | some u => if u == "" then none else some (shortIdOf u)

/-- Lexicon verification block, tagger.py:325-339: identifier membership
first (with reverse label lookup when the identifier is present), then
label membership of the preferred label when the identifier test did not
succeed.  Returns `(in_specified_version, owl_label)`. -/
def lexVerify (lex : OwlLexicon) (shortId : Option String)
    (prefLabel : Option String) : Bool × Option String :=
  let step1 : Bool × Option String :=
    match shortId with
    | some sid =>
      if sid != "" then
        if lex.has_id sid then (true, lex.get_label_by_id sid) else (false, none)
      else (false, none)
    | none => (false, none)
  if step1.1 = false then
    match prefLabel with
    | some pl => if pl != "" then (lex.has_label pl, step1.2) else step1
    | none => step1
  else step1

/-- Body of the per-term loop, tagger.py:301-378, for one term.  Each
iteration appends exactly one outcome; this function returns it. -/
def evalTerm (annotate : String → List Annotation) (version : Option String)
    (onVersionMissing : String) (versionFallback : Bool)
    (resolvedVersion : Option String) (owlLexicon : Option OwlLexicon)
    (latestVersion : String) (term : String) : AnnotationOutcome :=
  match annotate term with
  | [] => ⟨term, none, none, none, "not matched at all"⟩
  | top :: _ =>
    let classDetails := top.annotatedClass.getD ⟨none, none⟩
    let prefLabel := classDetails.prefLabel
    let shortId := candidateShortId classDetails
    let verified : Bool × Option String :=
      match owlLexicon with
      | none => (false, none)
      | some lex => lexVerify lex shortId prefLabel
    let inSpecifiedVersion := verified.1
    let owlLabel := verified.2
    let finalStandardizedTerm := pyOrOpt owlLabel prefLabel
    if optTruthy version && !versionFallback && inSpecifiedVersion then
      ⟨term, finalStandardizedTerm, shortId,
        some (pyOrStr resolvedVersion (version.getD "")),
        "matched in user specified version"⟩
    else if optTruthy version && versionFallback then
      ⟨term, finalStandardizedTerm, shortId, some latestVersion,
        "requested version missing; matched in latest"⟩
    else if optTruthy version && !inSpecifiedVersion then
      if onVersionMissing == "latest" then
        ⟨term, finalStandardizedTerm, shortId, some latestVersion,
          "matched in latest, no match in specified version"⟩
      else
        ⟨term, none, shortId,
          some (pyOrStr resolvedVersion (version.getD "")),
          "strict mode: not matched in specified version"⟩
    else
      ⟨term, finalStandardizedTerm, shortId, some latestVersion, "matched in latest"⟩

/-- The deterministic remote world one `annotate_terms` call runs against:
the submission list the service reports for the ontology, the annotation
candidates it returns per term text, the parsed triples of the downloaded
artifact, whether the download payload would look like JSON, whether
parsing the artifact fails, and the cache directory contents. -/
structure TagEnv where
  submissions : List Submission
  annotate : String → List Annotation
  graph : List Triple
  contentIsJson : Bool
  parseFails : Bool
  disk : List String

/-- tagger.py:272: `latest_version`, the first submission's version string
or the literal `"latest"`. -/
def latestOf (subs : List Submission) : String :=
  match subs with
  | [] => "latest"
  | s :: _ => s.versionOr "latest"

/-- Embedding of tagger.py:250 `annotate_terms`.  Returns the call result
together with the full trace of remote operations performed. -/
def annotate_terms (env : TagEnv) (ontology : String)
    (terms : Option (List (Option String))) (fileContent : Option String)
    (version : Option String) (onVersionMissing : String) :
    Except TagError (List AnnotationOutcome) × List RemoteCall :=
  match normalize_terms terms fileContent with
  | .error e => (.error e, [])
  | .ok prepared =>
    if prepared.isEmpty then (.ok [], [])
    else
      let tr0 : List RemoteCall := [.listSubs ontology]
      let subs := env.submissions
      let latest := latestOf subs
      let step : Except TagError (Bool × Option String × Option OwlLexicon) × List RemoteCall :=
        if optTruthy version then
          match subs.filter (fun s => s.versionStr == version.getD "") with
          | [] =>
            if onVersionMissing == "latest" then (.ok (true, none, none), [])
            else
              (.error (.versionNotFound ontology (version.getD "")
                (subs.map Submission.versionStr)), [])
          | _ :: _ =>
            match download_submission subs env.contentIsJson ontology version env.disk with
            | (.error e, _, trD) => (.error e, trD)
            | (.ok (_, resolved), _, trD) =>
              if env.parseFails then (.error .parseError, trD)
              else (.ok (false, some resolved, some (buildLexicon env.graph)), trD)
        else (.ok (false, none, none), [])
      match step with
      | (.error e, trD) => (.error e, tr0 ++ trD)
      | (.ok (versionFallback, resolvedVersion, owlLexicon), trD) =>
        (.ok (prepared.map (evalTerm env.annotate version onVersionMissing
            versionFallback resolvedVersion owlLexicon latest)),
         tr0 ++ trD ++ prepared.map (fun t => .annotateText t ontology))

/-! ## Concrete test world used by the witnesses and counterexamples -/

/-- A submission with version `2023-01-01`. -/
def subA : Submission := ⟨some "2023-01-01", some "7"⟩

/-- A concrete environment: one submission, a live candidate for `"cell"`
only, and an artifact defining `CL_0000001` with label `Cell`. -/
def envA : TagEnv :=
  { submissions := [subA]
  , annotate := fun t =>
      if t == "cell" then [⟨some ⟨some "cell", some "http://x/CL#CL_0000001"⟩⟩] else []
  , graph := [⟨.uriRef "http://x/CL#CL_0000001", rdfsLabel, .literal "Cell"⟩]
  , contentIsJson := false
  , parseFails := false
  , disk := [] }

/-- A concrete lexicon with identifier `cl_0000001` mapped to label `Cell`. -/
def lexA : OwlLexicon := ⟨["cell"], ["cl_0000001"], [("cl_0000001", "Cell")]⟩

/-- A live-annotation function returning one fixed candidate. -/
def annA : String → List Annotation :=
  fun _ => [⟨some ⟨some "cell", some "http://x/CL#CL_0000001"⟩⟩]

/-! ## General lemmas -/

/-- Every branch of the per-term loop copies the input term into
`input_text` of the outcome it appends. -/
theorem evalTerm_input_text (a : String → List Annotation) (v : Option String)
    (pol : String) (vf : Bool) (rv : Option String) (lex : Option OwlLexicon)
    (latest term : String) :
    (evalTerm a v pol vf rv lex latest term).input_text = term := by
  unfold evalTerm
  cases a term with
  | nil => rfl
  | cons top rest =>
    dsimp only
    split_ifs <;> rfl

/-- When `annotate_terms` succeeds, the outcome list projects back to the
normalized term list, one outcome per term in input order. -/
theorem annotate_ok_inputs (env : TagEnv) (o : String)
    (terms : Option (List (Option String))) (file : Option String)
    (v : Option String) (pol : String) (prepared : List String)
    (outs : List AnnotationOutcome)
    (hn : normalize_terms terms file = .ok prepared)
    (h : (annotate_terms env o terms file v pol).1 = .ok outs) :
    outs.map AnnotationOutcome.input_text = prepared := by
  unfold annotate_terms at h
  rw [hn] at h
  dsimp only at h
  cases hp : prepared.isEmpty with
  | true =>
    rw [hp] at h
    simp only [if_true] at h
    cases h
    simpa using (List.isEmpty_iff.mp hp).symm
  | false =>
    rw [hp] at h
    simp only [Bool.false_eq_true, if_false] at h
    split at h
    · simp at h
    · simp only [Except.ok.injEq] at h
      subst h
      simp [List.map_map, Function.comp_def, evalTerm_input_text]

/-! ## C1 -/

/-- C1: whenever `annotate_terms` returns an outcome list, it holds exactly
one outcome per normalized term, in input order (the outcomes project back
to the normalized term sequence); and when the normalized sequence is
empty, the call returns an empty list with an empty remote-call trace, so
no `list_submissions`, `annotate_text` or `download_submission` operation
is performed. -/
theorem annotate_terms_one_outcome_per_term (env : TagEnv) (o : String)
    (terms : Option (List (Option String))) (file : Option String)
    (v : Option String) (pol : String) (prepared : List String)
    (outs : List AnnotationOutcome)
    (hn : normalize_terms terms file = .ok prepared) :
    ((annotate_terms env o terms file v pol).1 = .ok outs →
      outs.map AnnotationOutcome.input_text = prepared) ∧
    (prepared = [] → annotate_terms env o terms file v pol = (.ok [], [])) := by
  constructor
  · exact fun h => annotate_ok_inputs env o terms file v pol prepared outs hn h
  · intro hp
    subst hp
    unfold annotate_terms
    rw [hn]
    rfl

/-- C1 witness at a concrete input: one term produces the one outcome that
projects back to it, and a whitespace-only term list yields `([], [])`. -/
theorem annotate_terms_one_outcome_per_term_witness :
    ([(⟨"cell", some "cell", some "CL_0000001", some "2023-01-01",
        "matched in latest"⟩ : AnnotationOutcome)].map AnnotationOutcome.input_text
      = ["cell"]) ∧
    annotate_terms envA "CL" (some [some " \n "]) none none "error" = (.ok [], []) :=
  ⟨(annotate_terms_one_outcome_per_term envA "CL" (some [some "cell"]) none none "error"
      ["cell"]
      [⟨"cell", some "cell", some "CL_0000001", some "2023-01-01", "matched in latest"⟩]
      rfl).1 rfl,
   (annotate_terms_one_outcome_per_term envA "CL" (some [some " \n "]) none none "error"
      [] [] rfl).2 rfl⟩

/-! ## C10 -/

/-- C10: with both the inline terms argument and the file argument absent,
`annotate_terms` fails with the normalization `ValueError` before any
remote call; a successful empty result can only arise when at least one
input source was supplied and it normalized to zero terms. -/
theorem annotate_terms_none_none_raises (env : TagEnv) (o : String)
    (terms : Option (List (Option String))) (file : Option String)
    (v : Option String) (pol : String) :
    annotate_terms env o none none v pol = (.error .valueErrorNoInput, []) ∧
    ((annotate_terms env o terms file v pol).1 = .ok [] →
      (terms ≠ none ∨ file ≠ none) ∧ normalize_terms terms file = .ok []) := by
  constructor
  · rfl
  · intro h
    cases hn : normalize_terms terms file with
    | error e =>
      unfold annotate_terms at h
      rw [hn] at h
      simp at h
    | ok prepared =>
      have hmap := annotate_ok_inputs env o terms file v pol prepared [] hn h
      simp only [List.map_nil] at hmap
      subst hmap
      refine ⟨?_, rfl⟩
      by_contra hc
      push_neg at hc
      rw [hc.1, hc.2] at hn
      exact Except.noConfusion hn

/-- C10 witness: the theorem applied at a concrete call whose single term
is empty after normalization. -/
theorem annotate_terms_none_none_raises_witness :
    ((some [some ""] : Option (List (Option String))) ≠ none ∨
      (none : Option String) ≠ none) ∧
    normalize_terms (some [some ""]) none = .ok [] :=
  (annotate_terms_none_none_raises envA "CL" (some [some ""]) none none "error").2 rfl

/-! ## C2 -/

/-- C2: under strict policy (`on_version_missing = "error"`), a requested
version equal to no submission's version string makes the whole call fail
with `OntologyVersionNotFound` carrying the ontology, the requested
version and the list of every available version string; no per-term
outcome is produced and the only remote call is the single submission-list
fetch. -/
theorem annotate_terms_strict_version_missing (env : TagEnv) (o : String)
    (terms : Option (List (Option String))) (file : Option String)
    (v : String) (prepared : List String)
    (hn : normalize_terms terms file = .ok prepared)
    (hne : prepared ≠ [])
    (hv : v ≠ "")
    (hmiss : ∀ s ∈ env.submissions, s.versionStr ≠ v) :
    annotate_terms env o terms file (some v) "error" =
      (.error (.versionNotFound o v (env.submissions.map Submission.versionStr)),
       [RemoteCall.listSubs o]) := by
  unfold annotate_terms
  rw [hn]
  dsimp only
  have hie : prepared.isEmpty = false := by
    cases hp : prepared.isEmpty
    · rfl
    · exact absurd (List.isEmpty_iff.mp hp) hne
  have hvt : optTruthy (some v) = true := by simp [optTruthy, hv]
  have hf : env.submissions.filter (fun s => s.versionStr == v) = [] :=
    List.filter_eq_nil_iff.mpr (fun s hs => by simpa using hmiss s hs)
  simp only [hie, Bool.false_eq_true, if_false, hvt, if_true, Option.getD_some, hf]
  rfl

/-- C2 witness: requesting version `9999` against submissions
`[2023-01-01]` fails with the fully populated error and no outcomes. -/
theorem annotate_terms_strict_version_missing_witness :
    annotate_terms envA "CL" (some [some "cell"]) none (some "9999") "error" =
      (.error (.versionNotFound "CL" "9999" ["2023-01-01"]),
       [RemoteCall.listSubs "CL"]) :=
  annotate_terms_strict_version_missing envA "CL" (some [some "cell"]) none "9999"
    ["cell"] rfl (by decide) (by decide) (by decide)

/-! ## C3 -/

/-- C3 counterexample: a permissive fallback call in which the term gets no
live candidate succeeds, but that outcome's comment is "not matched at
all", not "requested version missing; matched in latest" — so not every
outcome carries the fallback comment. -/
theorem annotate_terms_permissive_comment_counterexample :
    (annotate_terms envA "CL" (some [some "unicorn"]) none (some "9999") "latest").1 =
      .ok [⟨"unicorn", none, none, none, "not matched at all"⟩] ∧
    "not matched at all" ≠ "requested version missing; matched in latest" :=
  ⟨rfl, by decide⟩

/-- C3 amended: with a requested version matching no submission, under
permissive policy, the call succeeds; every outcome whose term has at
least one live candidate carries the comment "requested version missing;
matched in latest", while a term with no live candidate gets "not matched
at all"; and the result is independent of the artifact graph, parse
outcome, payload type and cache state — no download happens and no
lexicon is built. -/
theorem annotate_terms_permissive_version_missing (env : TagEnv) (o : String)
    (terms : Option (List (Option String))) (file : Option String)
    (v : String) (prepared : List String)
    (hn : normalize_terms terms file = .ok prepared)
    (hv : v ≠ "")
    (hmiss : ∀ s ∈ env.submissions, s.versionStr ≠ v) :
    (∃ outs, (annotate_terms env o terms file (some v) "latest").1 = .ok outs ∧
      ∀ out ∈ outs,
        (env.annotate out.input_text = [] → out.comment = "not matched at all") ∧
        (env.annotate out.input_text ≠ [] →
          out.comment = "requested version missing; matched in latest")) ∧
    (∀ g cj pf dk,
      annotate_terms
          { env with graph := g, contentIsJson := cj, parseFails := pf, disk := dk }
          o terms file (some v) "latest" =
        annotate_terms env o terms file (some v) "latest") := by
  have hvt : optTruthy (some v) = true := by simp [optTruthy, hv]
  have hf : env.submissions.filter (fun s => s.versionStr == v) = [] :=
    List.filter_eq_nil_iff.mpr (fun s hs => by simpa using hmiss s hs)
  by_cases hp : prepared.isEmpty
  · constructor
    · refine ⟨[], ?_, by simp⟩
      unfold annotate_terms
      rw [hn]
      dsimp only
      rw [hp]
      rfl
    · intro g cj pf dk
      unfold annotate_terms
      rw [hn]
      dsimp only
      rw [hp]
      rfl
  · have hie : prepared.isEmpty = false := by
      cases hpp : prepared.isEmpty
      · rfl
      · exact absurd hpp hp
    constructor
    · refine ⟨prepared.map (evalTerm env.annotate (some v) "latest" true none none
        (latestOf env.submissions)), ?_, ?_⟩
      · unfold annotate_terms
        rw [hn]
        dsimp only
        simp only [hie, Bool.false_eq_true, if_false, hvt, if_true,
          Option.getD_some, hf]
        rfl
      · intro out hout
        obtain ⟨t, ht, rfl⟩ := List.mem_map.mp hout
        rw [evalTerm_input_text]
        constructor
        · intro ha
          unfold evalTerm
          rw [ha]
        · intro ha
          obtain ⟨top, rest, htr⟩ := List.exists_cons_of_ne_nil ha
          unfold evalTerm
          rw [htr]
          dsimp only
          simp only [hvt, Bool.not_true, Bool.and_false, Bool.false_and,
            Bool.and_true, Bool.true_and, if_false, if_true, Bool.false_eq_true]
    · intro g cj pf dk
      unfold annotate_terms
      rw [hn]
      dsimp only
      simp only [hie, Bool.false_eq_true, if_false, hvt, if_true,
        Option.getD_some, hf]

/-- C3 amended witness: one term with a candidate, one without. -/
theorem annotate_terms_permissive_version_missing_witness :
    ∃ outs,
      (annotate_terms envA "CL" (some [some "cell", some "unicorn"]) none
        (some "9999") "latest").1 = .ok outs ∧
      ∀ out ∈ outs,
        (envA.annotate out.input_text = [] → out.comment = "not matched at all") ∧
        (envA.annotate out.input_text ≠ [] →
          out.comment = "requested version missing; matched in latest") :=
  (annotate_terms_permissive_version_missing envA "CL"
    (some [some "cell", some "unicorn"]) none "9999" ["cell", "unicorn"]
    rfl (by decide) (by decide)).1

/-! ## C4 -/

/-- A separator that does not occur leaves the list unchanged. -/
theorem afterLastChar_of_not_mem (sep : Char) (l : List Char) (h : sep ∉ l) :
    afterLastChar sep l = l := by
  induction l with
  | nil => rfl
  | cons c cs ih =>
    unfold afterLastChar
    rw [if_neg (fun hm => h (List.mem_cons_of_mem c hm)),
        if_neg (fun hc => h (by rw [hc]; exact List.mem_cons_self sep cs))]

/-- C4 counterexample: on `"a#b/c"` the code's extraction also applies the
`/` cut after the `#` cut and yields `"c"`, while the claim's rule (after
the last `#` when one is present) yields `"b/c"`. -/
theorem shortId_rule_counterexample :
    shortIdOf "a#b/c" = "c" ∧ specShortId "a#b/c" = "b/c" ∧
      shortIdOf "a#b/c" ≠ specShortId "a#b/c" :=
  ⟨rfl, rfl, by decide⟩

/-- C4 amended: the extraction takes the substring after the last `#` (the
whole string when `#` is absent) and then the substring after the last `/`
of that; it therefore agrees with the claim's rule whenever the input
contains no `#`, or the segment after the last `#` contains no `/` (as in
any concept URI whose fragment holds no slash), and it maps the two
example inputs exactly as claimed. -/
theorem shortId_extraction_rule :
    (∀ s : String, '#' ∉ s.data → shortIdOf s = specShortId s) ∧
    (∀ s : String, '/' ∉ (rsplitTail '#' s).data → shortIdOf s = specShortId s) ∧
    shortIdOf "http://x/A#Foo" = "Foo" ∧ shortIdOf "http://x/A/Bar" = "Bar" := by
  refine ⟨?_, ?_, rfl, rfl⟩
  · intro s hs
    unfold shortIdOf specShortId rsplitTail
    rw [if_neg hs]
    dsimp only
    rw [afterLastChar_of_not_mem '#' s.data hs]
  · intro s hs
    by_cases hm : '#' ∈ s.data
    · have hs' : '/' ∉ afterLastChar '#' s.data := hs
      unfold specShortId
      rw [if_pos hm]
      unfold shortIdOf rsplitTail
      dsimp only
      rw [afterLastChar_of_not_mem '/' _ hs']
    · unfold shortIdOf specShortId rsplitTail
      rw [if_neg hm]
      dsimp only
      rw [afterLastChar_of_not_mem '#' s.data hm]

/-- C4 amended witness: both hypotheses discharged at concrete strings. -/
theorem shortId_extraction_rule_witness :
    shortIdOf "no.hash/here" = specShortId "no.hash/here" ∧
    shortIdOf "http://x/A#Foo" = specShortId "http://x/A#Foo" :=
  ⟨shortId_extraction_rule.1 "no.hash/here" (by decide),
   shortId_extraction_rule.2.1 "http://x/A#Foo" (by decide)⟩

/-! ## C5 -/

/-- A truthy identifier present in the lexicon short-circuits verification
and carries the reverse label lookup. -/
theorem lexVerify_id_found (lex : OwlLexicon) (sid : String) (pl : Option String)
    (hs : sid ≠ "") (hid : lex.has_id sid = true) :
    lexVerify lex (some sid) pl = (true, lex.get_label_by_id sid) := by
  unfold lexVerify
  simp [hs, hid]

/-- A truthy identifier absent from the lexicon falls back to the label
membership test on a truthy preferred label. -/
theorem lexVerify_id_not_found (lex : OwlLexicon) (sid : String) (pl : String)
    (hs : sid ≠ "") (hid : lex.has_id sid = false) (hpl : pl ≠ "") :
    lexVerify lex (some sid) (some pl) = (lex.has_label pl, none) := by
  unfold lexVerify
  simp [hs, hid, hpl]

/-- With no identifier at all, the label membership test decides. -/
theorem lexVerify_no_id (lex : OwlLexicon) (pl : String) (hpl : pl ≠ "") :
    lexVerify lex none (some pl) = (lex.has_label pl, none) := by
  unfold lexVerify
  simp [hpl]

/-- C5: while a Release Lexicon exists (requested version found, no
fallback), identifier membership is tested first: if the candidate's short
identifier is in the lexicon the term counts as in the specified version
and, when reverse lookup by that identifier yields a (non-empty) label,
that lexicon label is the standardized term, preferred over the live
preferred label; if the identifier is absent from the lexicon or missing
from the candidate, membership of the live preferred label decides "in
specified version". -/
theorem evalTerm_lexicon_verification (annotate : String → List Annotation)
    (vv pol : String) (rv : Option String) (lex : OwlLexicon)
    (latest term : String) (top : Annotation) (tl : List Annotation)
    (cd : AnnotatedClass) (out : AnnotationOutcome)
    (htop : annotate term = top :: tl)
    (hcd : top.annotatedClass = some cd)
    (hvv : vv ≠ "")
    (hout : evalTerm annotate (some vv) pol false rv (some lex) latest term = out) :
    (∀ u, cd.id = some u → u ≠ "" → shortIdOf u ≠ "" →
      lex.has_id (shortIdOf u) = true →
        out.comment = "matched in user specified version" ∧
        ∀ L, lex.get_label_by_id (shortIdOf u) = some L → L ≠ "" →
          out.standardized_term = some L) ∧
    (∀ u, cd.id = some u → u ≠ "" → shortIdOf u ≠ "" →
      lex.has_id (shortIdOf u) = false →
        ∀ p, cd.prefLabel = some p → p ≠ "" →
          (out.comment = "matched in user specified version" ↔
            lex.has_label p = true)) ∧
    (cd.id = none → ∀ p, cd.prefLabel = some p → p ≠ "" →
      (out.comment = "matched in user specified version" ↔
        lex.has_label p = true)) := by
  subst hout
  have hvt : optTruthy (some vv) = true := by simp [optTruthy, hvv]
  refine ⟨?_, ?_, ?_⟩
  · intro u hu hune hsne hid
    have hshort : candidateShortId cd = some (shortIdOf u) := by
      unfold candidateShortId
      rw [hu]
      simp [hune]
    have hred : evalTerm annotate (some vv) pol false rv (some lex) latest term =
        ⟨term, pyOrOpt (lex.get_label_by_id (shortIdOf u)) cd.prefLabel,
          some (shortIdOf u), some (pyOrStr rv vv),
          "matched in user specified version"⟩ := by
      unfold evalTerm
      rw [htop]
      dsimp only
      rw [hcd]
      dsimp only [Option.getD]
      rw [hshort, lexVerify_id_found lex (shortIdOf u) cd.prefLabel hsne hid]
      dsimp only
      simp only [hvt, Bool.not_false, Bool.and_true, Bool.true_and, if_true]
    rw [hred]
    refine ⟨rfl, ?_⟩
    intro L hL hLne
    dsimp only
    rw [hL]
    unfold pyOrOpt
    simp [hLne]
  · intro u hu hune hsne hid p hp hpne
    have hshort : candidateShortId cd = some (shortIdOf u) := by
      unfold candidateShortId
      rw [hu]
      simp [hune]
    have hred : (evalTerm annotate (some vv) pol false rv (some lex) latest
        term).comment = (if lex.has_label p = true
          then "matched in user specified version"
          else if pol == "latest"
            then "matched in latest, no match in specified version"
            else "strict mode: not matched in specified version") := by
      unfold evalTerm
      rw [htop]
      dsimp only
      rw [hcd]
      dsimp only [Option.getD]
      rw [hshort, hp, lexVerify_id_not_found lex (shortIdOf u) p hsne hid hpne]
      dsimp only
      cases hb : lex.has_label p with
      | true =>
        simp only [hvt, hb, Bool.not_false, Bool.and_true, Bool.true_and,
          if_true]
      | false =>
        simp only [hvt, hb, Bool.not_false, Bool.and_true, Bool.and_false,
          Bool.true_and, Bool.false_eq_true, if_false, Bool.not_true, if_true]
        split <;> rfl
    rw [hred]
    cases hb : lex.has_label p with
    | true => simp [hb]
    | false =>
      simp only [hb, Bool.false_eq_true, if_false]
      constructor
      · intro hcm
        exfalso
        revert hcm
        split <;> decide
      · intro hfalse
        exact absurd hfalse (by decide)
  · intro hnone p hp hpne
    have hshort : candidateShortId cd = none := by
      unfold candidateShortId
      rw [hnone]
    have hred : (evalTerm annotate (some vv) pol false rv (some lex) latest
        term).comment = (if lex.has_label p = true
          then "matched in user specified version"
          else if pol == "latest"
            then "matched in latest, no match in specified version"
            else "strict mode: not matched in specified version") := by
      unfold evalTerm
      rw [htop]
      dsimp only
      rw [hcd]
      dsimp only [Option.getD]
      rw [hshort, hp, lexVerify_no_id lex p hpne]
      dsimp only
      cases hb : lex.has_label p with
      | true =>
        simp only [hvt, hb, Bool.not_false, Bool.and_true, Bool.true_and,
          if_true]
      | false =>
        simp only [hvt, hb, Bool.not_false, Bool.and_true, Bool.and_false,
          Bool.true_and, Bool.false_eq_true, if_false, Bool.not_true, if_true]
        split <;> rfl
    rw [hred]
    cases hb : lex.has_label p with
    | true => simp [hb]
    | false =>
      simp only [hb, Bool.false_eq_true, if_false]
      constructor
      · intro hcm
        exfalso
        revert hcm
        split <;> decide
      · intro hfalse
        exact absurd hfalse (by decide)

/-- C5 witness: candidate `CL_0000001` present in the lexicon with label
`Cell`; the outcome is "matched in user specified version" and the
standardized term is the lexicon's own label, not the live `cell`. -/
theorem evalTerm_lexicon_verification_witness :
    (evalTerm annA (some "2023-01-01") "error" false (some "2023-01-01")
        (some lexA) "latest" "cell").comment = "matched in user specified version" ∧
    (evalTerm annA (some "2023-01-01") "error" false (some "2023-01-01")
        (some lexA) "latest" "cell").standardized_term = some "Cell" := by
  have h := (evalTerm_lexicon_verification annA "2023-01-01" "error"
      (some "2023-01-01") lexA "latest" "cell"
      ⟨some ⟨some "cell", some "http://x/CL#CL_0000001"⟩⟩ []
      ⟨some "cell", some "http://x/CL#CL_0000001"⟩ _ rfl rfl (by decide) rfl).1
      "http://x/CL#CL_0000001" rfl (by decide) (by decide) rfl
  exact ⟨h.1, h.2 "Cell" rfl (by decide)⟩

/-! ## C6 -/

/-- Verification yields `(false, none)` when the identifier (if truthy) is
absent from the lexicon and the preferred label (if truthy) is absent
too. -/
theorem lexVerify_false (lex : OwlLexicon) (sid : Option String)
    (pl : Option String)
    (hid : ∀ s, sid = some s → s ≠ "" → lex.has_id s = false)
    (hlab : ∀ p, pl = some p → p ≠ "" → lex.has_label p = false) :
    lexVerify lex sid pl = (false, none) := by
  unfold lexVerify
  have hstep : (match sid with
      | some sid =>
        if sid != "" then
          if lex.has_id sid then (true, lex.get_label_by_id sid) else (false, none)
        else (false, none)
      | none => ((false : Bool), (none : Option String))) = (false, none) := by
    cases sid with
    | none => rfl
    | some s =>
      dsimp only
      by_cases hs : s = ""
      · simp [hs]
      · simp only [bne_iff_ne, ne_eq, hs, not_false_eq_true, if_true,
          hid s rfl hs, Bool.false_eq_true, if_false]
  rw [hstep]
  dsimp only
  cases pl with
  | none => rfl
  | some p =>
    dsimp only
    by_cases hp : p = ""
    · simp [hp]
    · simp [hp, hlab p rfl hp]

/-- C6: under strict policy with a requested and found version, a top
candidate found in neither lexicon index produces exactly the outcome
`{standardized_term: none, ontology_id: candidate short id,
ontology_version: resolved-or-requested, comment: "strict mode: not
matched in specified version"}`; the version field never falls back to
latest. -/
theorem evalTerm_strict_not_in_version (annotate : String → List Annotation)
    (vv : String) (rv : Option String) (lex : OwlLexicon)
    (latest term : String) (top : Annotation) (tl : List Annotation)
    (cd : AnnotatedClass)
    (htop : annotate term = top :: tl)
    (hcd : top.annotatedClass = some cd)
    (hvv : vv ≠ "")
    (hid : ∀ u, cd.id = some u → u ≠ "" → shortIdOf u ≠ "" →
      lex.has_id (shortIdOf u) = false)
    (hlab : ∀ p, cd.prefLabel = some p → p ≠ "" → lex.has_label p = false) :
    evalTerm annotate (some vv) "error" false rv (some lex) latest term =
      ⟨term, none, candidateShortId cd, some (pyOrStr rv vv),
        "strict mode: not matched in specified version"⟩ := by
  have hvt : optTruthy (some vv) = true := by simp [optTruthy, hvv]
  have hid' : ∀ s, candidateShortId cd = some s → s ≠ "" → lex.has_id s = false := by
    intro s hs hsne
    unfold candidateShortId at hs
    cases hcdid : cd.id with
    | none =>
      rw [hcdid] at hs
      exact absurd hs (by simp)
    | some u =>
      rw [hcdid] at hs
      by_cases hu : u = ""
      · simp [hu] at hs
      · simp only [beq_iff_eq, hu, if_neg, Option.some.injEq,
          (by simp [hu] : (u == "") = false), Bool.false_eq_true,
          if_false] at hs
        rw [← hs]
        exact hid u hcdid hu (hs ▸ hsne)
  have hlv := lexVerify_false lex (candidateShortId cd) cd.prefLabel hid' hlab
  unfold evalTerm
  rw [htop]
  dsimp only
  rw [hcd]
  dsimp only [Option.getD]
  rw [hlv]
  dsimp only
  simp only [hvt, Bool.not_false, Bool.and_true, Bool.and_false,
    Bool.true_and, Bool.false_eq_true, if_false, if_true]
  rfl

/-- C6 witness: against an empty lexicon the candidate yields exactly the
strict outcome, keeping the resolved version and the candidate short
identifier. -/
theorem evalTerm_strict_not_in_version_witness :
    evalTerm annA (some "2023-01-01") "error" false (some "2023-01-01")
        (some ⟨[], [], []⟩) "9.9" "cell" =
      ⟨"cell", none, some "CL_0000001", some "2023-01-01",
        "strict mode: not matched in specified version"⟩ :=
  evalTerm_strict_not_in_version annA "2023-01-01" (some "2023-01-01")
    ⟨[], [], []⟩ "9.9" "cell"
    ⟨some ⟨some "cell", some "http://x/CL#CL_0000001"⟩⟩ []
    ⟨some "cell", some "http://x/CL#CL_0000001"⟩ rfl rfl (by decide)
    (fun u hu h1 h2 => by injection hu with h; rw [← h]; rfl)
    (fun p hp h1 => by injection hp with h; rw [← h]; rfl)

/-! ## C7 -/

/-- C7: a successful `download_submission` returns the deterministic cache
path `{ontology}_{resolved}.owl`, leaves that file on disk, and repeating
the call with the same arguments returns the same path and resolved
version from the cache with no network download; the first call performed
exactly one network download when the file was not already cached, and
none when it was. -/
theorem download_submission_idempotent (subs : List Submission) (json : Bool)
    (o : String) (v : Option String) (disk disk₂ : List String)
    (p rv : String) (tr₁ : List RemoteCall)
    (h₁ : download_submission subs json o v disk = (.ok (p, rv), disk₂, tr₁)) :
    p = destName o rv ∧ disk₂.contains p = true ∧
    download_submission subs json o v disk₂ =
      (.ok (p, rv), disk₂, [RemoteCall.listSubs o]) ∧
    countNetDownloads tr₁ = (if disk.contains p then 0 else 1) := by
  unfold download_submission at h₁ ⊢
  cases hsel : selectSubmission subs o v with
  | error e =>
    rw [hsel] at h₁
    simp at h₁
  | ok sub =>
    rw [hsel] at h₁
    dsimp only at h₁ ⊢
    cases hid : optTruthy sub.submissionId with
    | false =>
      rw [hid] at h₁
      simp at h₁
    | true =>
      rw [hid] at h₁
      rw [if_neg (by decide : ¬ ((true : Bool) = false))] at h₁
      rw [if_neg (by decide : ¬ ((true : Bool) = false))]
      cases hc : disk.contains (destName o (sub.versionOr "latest")) with
      | true =>
        rw [hc] at h₁
        rw [if_pos rfl] at h₁
        simp only [Prod.mk.injEq, Except.ok.injEq] at h₁
        obtain ⟨⟨hp, hrv⟩, hdisk, htr⟩ := h₁
        subst hp
        subst hrv
        subst hdisk
        subst htr
        refine ⟨rfl, hc, ?_, ?_⟩
        · rw [hc]
          rfl
        · rw [hc]
          rfl
      | false =>
        rw [hc] at h₁
        rw [if_neg (by decide : ¬ ((false : Bool) = true))] at h₁
        cases json with
        | true =>
          rw [if_pos rfl] at h₁
          simp at h₁
        | false =>
          rw [if_neg (by decide : ¬ ((false : Bool) = true))] at h₁
          simp only [Prod.mk.injEq, Except.ok.injEq] at h₁
          obtain ⟨⟨hp, hrv⟩, hdisk, htr⟩ := h₁
          subst hp
          subst hrv
          subst hdisk
          subst htr
          refine ⟨rfl, by simp, ?_, ?_⟩
          · simp
          · rw [hc]
            rfl

/-- C7 witness: a fresh download followed by a cached hit. -/
theorem download_submission_idempotent_witness :
    ("CL_2023-01-01.owl" = destName "CL" "2023-01-01") ∧
    (["CL_2023-01-01.owl"].contains "CL_2023-01-01.owl" = true) ∧
    download_submission [subA] false "CL" (some "2023-01-01")
        ["CL_2023-01-01.owl"] =
      (.ok ("CL_2023-01-01.owl", "2023-01-01"), ["CL_2023-01-01.owl"],
        [RemoteCall.listSubs "CL"]) ∧
    countNetDownloads [RemoteCall.listSubs "CL",
        RemoteCall.netDownload "CL" "2023-01-01"] =
      (if ([] : List String).contains "CL_2023-01-01.owl" then 0 else 1) :=
  download_submission_idempotent [subA] false "CL" (some "2023-01-01") []
    ["CL_2023-01-01.owl"] "CL_2023-01-01.owl" "2023-01-01"
    [RemoteCall.listSubs "CL", RemoteCall.netDownload "CL" "2023-01-01"] rfl

/-! ## C8 -/

/-- C8 counterexample: with an empty submission list the failure is the
`versionNotFound` error — the one `OntologyVersionNotFound` exception
class that also serves a requested version missing from a non-empty list —
not a distinct no-submissions error (the code defines no such class). -/
theorem download_submission_empty_error_counterexample :
    (download_submission [] false "ONT" (some "v1") []).1 =
      .error (.versionNotFound "ONT" "v1" []) := rfl

/-- C8 amended: an empty submission list makes `download_submission` fail
with `OntologyVersionNotFound(ontology, requested-or-"latest", [])` — the
same exception class as the missing-version failure, distinguishable from
it only by the empty `available` list — after the single submission-list
fetch and without touching the disk. -/
theorem download_submission_empty_submissions (json : Bool) (o : String)
    (v : Option String) (disk : List String) :
    download_submission [] json o v disk =
      (.error (.versionNotFound o (pyOrStr v "latest") []), disk,
        [RemoteCall.listSubs o]) := rfl

/-! ## C9 -/

/-- Trace counting distributes over concatenation. -/
theorem countListSubs_append (a b : List RemoteCall) :
    countListSubs (a ++ b) = countListSubs a + countListSubs b := by
  unfold countListSubs
  rw [List.filter_append, List.length_append]

/-- Per-term annotation calls contribute no submission-list fetch. -/
theorem countListSubs_annotateTexts (ts : List String) (o : String) :
    countListSubs (ts.map (fun t => RemoteCall.annotateText t o)) = 0 := by
  unfold countListSubs
  induction ts with
  | nil => rfl
  | cons t ts ih =>
    rw [List.map_cons, List.filter_cons_of_neg (by exact fun h => nomatch h)]
    exact ih

/-- Every path through `download_submission` performs exactly one
submission-list fetch of its own. -/
theorem countListSubs_download (subs : List Submission) (json : Bool)
    (o : String) (v : Option String) (disk : List String) :
    countListSubs (download_submission subs json o v disk).2.2 = 1 := by
  unfold download_submission
  cases selectSubmission subs o v with
  | error e => rfl
  | ok sub =>
    dsimp only
    split
    · rfl
    · split
      · rfl
      · split
        · rfl
        · rfl

/-- C9 counterexample: a call whose requested version is found performs
the submission-list operation twice — once up front and once more inside
`download_submission` — not exactly once. -/
theorem annotate_terms_listSubs_twice_counterexample :
    countListSubs (annotate_terms envA "CL" (some [some "cell"]) none
      (some "2023-01-01") "error").2 = 2 := rfl

/-- C9 amended: for a non-empty normalized term sequence, the
submission-list operation happens once up front plus once more inside
`download_submission` exactly when the requested version is truthy and
matches a submission (twice on the download path, once otherwise) —
independent of the number of terms; and with no version requested, every
outcome of a term with a live candidate reports `latestOf`, the first
submission's version string or the literal "latest" for an empty list, as
computed from that single up-front fetch. -/
theorem annotate_terms_listSubs_count (env : TagEnv) (o : String)
    (terms : Option (List (Option String))) (file : Option String)
    (v : Option String) (pol : String) (prepared : List String)
    (hn : normalize_terms terms file = .ok prepared)
    (hne : prepared ≠ []) :
    (countListSubs (annotate_terms env o terms file v pol).2 =
      if optTruthy v = true ∧
          env.submissions.filter (fun s => s.versionStr == v.getD "") ≠ []
        then 2 else 1) ∧
    (v = none → ∀ outs, (annotate_terms env o terms file v pol).1 = .ok outs →
      ∀ out ∈ outs, env.annotate out.input_text ≠ [] →
        out.ontology_version = some (latestOf env.submissions)) := by
  have hie : prepared.isEmpty = false := by
    cases hp : prepared.isEmpty
    · rfl
    · exact absurd (List.isEmpty_iff.mp hp) hne
  constructor
  · unfold annotate_terms
    rw [hn]
    dsimp only
    rw [hie]
    simp only [Bool.false_eq_true, if_false]
    cases hv : optTruthy v with
    | false =>
      simp only [Bool.false_eq_true, if_false, false_and]
      rw [countListSubs_append, countListSubs_append,
        countListSubs_annotateTexts]
      rfl
    | true =>
      simp only [if_true, true_and]
      cases hflt : env.submissions.filter (fun s => s.versionStr == v.getD "") with
      | nil =>
        simp only [ne_eq, not_true_eq_false, if_false]
        cases hpol : pol == "latest" with
        | true =>
          rw [if_pos rfl]
          dsimp only
          rw [countListSubs_append, countListSubs_append,
            countListSubs_annotateTexts]
          rfl
        | false =>
          rw [if_neg (by decide : ¬ ((false : Bool) = true))]
          dsimp only
          rw [countListSubs_append]
          rfl
      | cons s₀ rest =>
        simp only [ne_eq, reduceCtorEq, not_false_eq_true, if_true]
        rcases hdl : download_submission env.submissions env.contentIsJson o v
            env.disk with ⟨res, disk', trD⟩
        have hcd : countListSubs trD = 1 := by
          have := countListSubs_download env.submissions env.contentIsJson o v
            env.disk
          rw [hdl] at this
          exact this
        cases res with
        | error e =>
          dsimp only
          rw [countListSubs_append, hcd]
          rfl
        | ok pr =>
          rcases pr with ⟨path, resolved⟩
          dsimp only
          cases hpf : env.parseFails with
          | true =>
            rw [if_pos rfl]
            dsimp only
            rw [countListSubs_append, hcd]
            rfl
          | false =>
            rw [if_neg (by decide : ¬ ((false : Bool) = true))]
            dsimp only
            rw [countListSubs_append, countListSubs_append, hcd,
              countListSubs_annotateTexts]
            rfl
  · intro hvn outs h out hout ha
    subst hvn
    unfold annotate_terms at h
    rw [hn] at h
    dsimp only at h
    rw [hie] at h
    simp only [Bool.false_eq_true, if_false,
      show optTruthy (none : Option String) = false from rfl] at h
    simp only [Except.ok.injEq] at h
    subst h
    obtain ⟨t, ht, rfl⟩ := List.mem_map.mp hout
    rw [evalTerm_input_text] at ha
    obtain ⟨top, rest, htr⟩ := List.exists_cons_of_ne_nil ha
    unfold evalTerm
    rw [htr]
    dsimp only
    simp only [show optTruthy (none : Option String) = false from rfl,
      Bool.false_and, Bool.false_eq_true, if_false]

/-- C9 amended witness: the no-version path performs exactly one fetch. -/
theorem annotate_terms_listSubs_count_witness :
    countListSubs (annotate_terms envA "CL" (some [some "cell"]) none
      none "error").2 =
      (if optTruthy none = true ∧
          envA.submissions.filter
            (fun s => s.versionStr == (none : Option String).getD "") ≠ []
        then 2 else 1) :=
  (annotate_terms_listSubs_count envA "CL" (some [some "cell"]) none none
    "error" ["cell"] rfl (by decide)).1
